import Mathlib

/-!
Verification development for the yew component lifecycle, suspense and
server-rendering core.

Each definition in this file is a shallow embedding of a function of the
repository (file and symbol named in its doc comment).  Opaque collaborators
(child virtual-dom nodes, the physical DOM, suspensions) are represented by
identifiers, and the side effects a function performs on them are recorded in
explicit effect traces, in the order the source performs them.
-/

namespace Yew

/-- Creation mode of a component, mirroring the RenderMode enum used by
ComponentState::changed in packages/yew/src/html/component/lifecycle.rs. -/
inductive RenderMode where
  | render
  | hydration
  | ssr
deriving DecidableEq, Repr

/-- State of one live component, mirroring the fields of ComponentState in
packages/yew/src/html/component/lifecycle.rs that ComponentState::changed
reads or writes.  The properties type is opaque; hookState stands for the
internal hook state of the function component (never touched by changed);
renderedBundle is true when the Realized value is Realized::Bundle and false
when it is Realized::Fragement; nextSibling records the node the next_sibling
NodeRef currently resolves to (NodeRef::link replaces that target). -/
structure CState (Props : Type) where
  props : Props
  hookState : Nat
  creationMode : RenderMode
  renderedBundle : Bool
  pendingProps : Option Props
  nextSibling : Nat
deriving Repr

namespace ComponentState

/-- Shallow embedding of ComponentState::changed
(packages/yew/src/html/component/lifecycle.rs, lines 288-333).  Returns the
updated state together with the schedule_render flag; the source runs
self.render() exactly when that flag is true.  propsEq stands for
self.component.props_eq. -/
def changed {Props : Type} (propsEq : Props → Props → Bool)
    (props : Option Props) (nextSibling : Option Nat) (st : CState Props) :
    CState Props × Bool :=
  -- if let Some(next_sibling) = next_sibling { self.next_sibling.link(next_sibling); }
  let st1 : CState Props :=
    match nextSibling with
    | some ns => { st with nextSibling := ns }
    | none => st
  if st1.creationMode = RenderMode.hydration then
    -- props.or_else(|| self.pending_props.take()): the closure runs only
    -- when props is None, and take() clears pending_props.
    let taken : Option Props × CState Props :=
      match props with
      | some p => (some p, st1)
      | none => (st1.pendingProps, { st1 with pendingProps := none })
    match taken with
    | (some p, st2) =>
      if st2.renderedBundle then
        let st3 := { st2 with pendingProps := none }
        let st4 := if propsEq st3.props p then st3 else { st3 with props := p }
        (st4, true)
      else
        ({ st2 with pendingProps := some p }, false)
    | (none, st2) => (st2, false)
  else
    match props with
    | some p =>
      if propsEq st1.props p then (st1, false) else ({ st1 with props := p }, true)
    | none => (st1, false)

end ComponentState

/-- The re-render decision of ComponentState::changed, written out as a
standalone condition over the inputs (the specification-side description to
compare the source translation against). -/
def rerenderExpectedSpec {Props : Type} (propsEq : Props → Props → Bool)
    (props : Option Props) (st : CState Props) : Bool :=
  if st.creationMode = RenderMode.hydration then
    (props.isSome || st.pendingProps.isSome) && st.renderedBundle
  else
    match props with
    | some p => !propsEq st.props p
    | none => false

/-- Claim C1 as stated: changed triggers a re-render exactly when the new
properties differ under the equality check or the next_sibling reference
changed. -/
def claimC1Stated : Prop :=
  ∀ (propsEq : Nat → Nat → Bool) (props : Option Nat) (nextSibling : Option Nat)
    (st : CState Nat),
    ((ComponentState.changed propsEq props nextSibling st).2 = true ↔
      ((∃ p, props = some p ∧ propsEq st.props p = false) ∨
       (∃ ns, nextSibling = some ns ∧ ns ≠ st.nextSibling)))

/-- C1, counterexample: updating only the next_sibling of a live component
(props argument absent, creation mode Render) relinks the anchor but does not
schedule a render, refuting the "or the next_sibling reference changed"
disjunct of the claim. -/
theorem changed_nextSibling_only_no_render : ¬ claimC1Stated := by
  intro h
  have h0 := h (fun a b => a == b) none (some 1)
    { props := 0, hookState := 0, creationMode := RenderMode.render,
      renderedBundle := true, pendingProps := none, nextSibling := 0 }
  have h1 :
      (ComponentState.changed (fun a b : Nat => a == b) none (some 1)
        { props := 0, hookState := 0, creationMode := RenderMode.render,
          renderedBundle := true, pendingProps := none, nextSibling := 0 }).2 = true :=
    h0.mpr (Or.inr ⟨1, rfl, by decide⟩)
  simp [ComponentState.changed] at h1

/-- C1, amended: changed schedules a re-render exactly when properties were
supplied and differ under the props equality check (in hydration
creation mode: exactly when new or pending properties exist and the component
has a realized Bundle); a next_sibling argument only relinks the positional
anchor and never by itself triggers a render, and the internal hook state is
never reset by the call. -/
theorem changed_rerender_gate {Props : Type} (propsEq : Props → Props → Bool)
    (props : Option Props) (nextSibling : Option Nat) (st : CState Props) :
    (ComponentState.changed propsEq props nextSibling st).2 =
        rerenderExpectedSpec propsEq props st
      ∧ (ComponentState.changed propsEq props nextSibling st).1.hookState = st.hookState
      ∧ (ComponentState.changed propsEq props nextSibling st).1.nextSibling =
          (match nextSibling with | some ns => ns | none => st.nextSibling) := by
  cases st with
  | mk p hs cm rb pp ns0 =>
    cases nextSibling <;> cases cm <;> cases props <;> cases pp <;> cases rb <;>
      simp [ComponentState.changed, rerenderExpectedSpec] <;>
      (try split) <;> simp_all

/-! ### Shared state slot and the run_* entry points (claim C3)

ComponentState::run_render, run_update_props and run_destroy
(packages/yew/src/html/component/lifecycle.rs, lines 120-140) all gate on the
shared Shared(Option(ComponentState)) slot of the scope: they do nothing when
the slot is None, and run_destroy takes the state out of the slot before
running destroy, so the slot is None afterwards.  The state type and the
per-state behaviour of render/changed/destroy are abstract parameters here;
events record that the respective body actually ran. -/

/-- Observable lifecycle events: the component teardown hook running
(FunctionComponent::destroy at the head of ComponentState::destroy), a render
body running, and a changed body running. -/
inductive LEv where
  | teardown
  | renderInvoked
  | updateInvoked
deriving DecidableEq, Repr

namespace ComponentState

/-- Shallow embedding of ComponentState::run_render: borrow the shared slot
and render only when a live state is present. -/
def runRender {σ : Type} (render : σ → σ) (slot : Option σ) :
    Option σ × List LEv :=
  match slot with
  | some st => (some (render st), [LEv.renderInvoked])
  | none => (none, [])

/-- Shallow embedding of ComponentState::run_update_props: borrow the shared
slot and run changed only when a live state is present. -/
def runUpdateProps {σ : Type} (changedFn : σ → σ) (slot : Option σ) :
    Option σ × List LEv :=
  match slot with
  | some st => (some (changedFn st), [LEv.updateInvoked])
  | none => (none, [])

/-- Shallow embedding of ComponentState::run_destroy: take the state out of
the shared slot (clearing it) and, only if one was present, run destroy,
which first runs the component teardown hook and then detaches the realized
layout (the detach effects are abstracted by destroyEffs). -/
def runDestroy {σ : Type} (destroyEffs : σ → List LEv) (slot : Option σ) :
    Option σ × List LEv :=
  match slot with
  | some st => (none, LEv.teardown :: destroyEffs st)
  | none => (none, [])

end ComponentState

/-- An operation scheduled against the shared state slot of a scope. -/
inductive SlotOp where
  | render
  | updateProps
  | destroy
deriving DecidableEq, Repr

namespace ComponentState

/-- Dispatch one scheduled operation against the shared slot. -/
def stepOp {σ : Type} (render changedFn : σ → σ) (destroyEffs : σ → List LEv)
    (slot : Option σ) : SlotOp → Option σ × List LEv
  | SlotOp.render => runRender render slot
  | SlotOp.updateProps => runUpdateProps changedFn slot
  | SlotOp.destroy => runDestroy destroyEffs slot

/-- Run a sequence of scheduled operations against the shared slot,
collecting all emitted lifecycle events in order. -/
def runOps {σ : Type} (render changedFn : σ → σ) (destroyEffs : σ → List LEv)
    (slot : Option σ) : List SlotOp → Option σ × List LEv
  | [] => (slot, [])
  | op :: rest =>
    let r1 := stepOp render changedFn destroyEffs slot op
    let r2 := runOps render changedFn destroyEffs r1.1 rest
    (r2.1, r1.2 ++ r2.2)

end ComponentState

/-- C3, confirmed: destroying a live scope clears the shared slot, and once
the slot is cleared every subsequently executed render, props-update or
destroy operation is a no-op — it leaves the slot empty, mutates no state and
emits no event (in particular no second teardown). -/
theorem destroyed_scope_ops_noop {σ : Type} (render changedFn : σ → σ)
    (destroyEffs : σ → List LEv) (st : σ) (ops : List SlotOp) :
    (ComponentState.runDestroy destroyEffs (some st)).1 = none
      ∧ ComponentState.runOps render changedFn destroyEffs none ops = (none, []) := by
  refine ⟨rfl, ?_⟩
  induction ops with
  | nil => rfl
  | cons op rest ih =>
    cases op <;>
      simp [ComponentState.runOps, ComponentState.stepOp, ComponentState.runRender,
        ComponentState.runUpdateProps, ComponentState.runDestroy, ih]

/-! ### Teardown order on destroy (claim C2)

ComponentState::destroy (packages/yew/src/html/component/lifecycle.rs, lines
173-189) first runs the teardown hook of the component itself
(self.component.destroy()), then resumes any outstanding suspension, and only
then detaches the realized Bundle.  Modelled from the spec: detaching a
Bundle destroys every nested child component scope in document order (the
per-variant detach code lives outside src/).  A component subtree is encoded
as an identifier plus a forest of child subtrees. -/

/-- A forest of component subtrees: nil, or a component with its own child
forest followed by its sibling forest. -/
inductive CompForest where
  | nil
  | cons (id : Nat) (children : CompForest) (siblings : CompForest)
deriving DecidableEq, Repr

/-- Order in which teardown hooks run while a forest of child components is
detached: for each component its own hook first (ComponentState::destroy runs
component.destroy() before detaching its bundle), then its descendants, then
its next sibling. -/
def teardownTraceF : CompForest → List Nat
  | CompForest.nil => []
  | CompForest.cons i children siblings =>
    (i :: teardownTraceF children) ++ teardownTraceF siblings

/-- Order in which teardown hooks run when ComponentState::destroy runs for a
component with the given id and rendered child components: its own hook
first, then the hooks of the detached subtree. -/
def teardownTrace (id : Nat) (children : CompForest) : List Nat :=
  id :: teardownTraceF children

/-- Index of the first occurrence of a value in a list (length of the list
when absent). -/
def idxOf (n : Nat) : List Nat → Nat
  | [] => 0
  | x :: xs => if x = n then 0 else idxOf n xs + 1

/-- Claim C2 as stated: on destroy, the teardown hook of every child
component runs strictly before the teardown hook of the parent component
itself. -/
def claimC2Stated : Prop :=
  ∀ (id : Nat) (children : CompForest) (n : Nat),
    n ∈ teardownTraceF children →
    idxOf n (teardownTrace id children) < idxOf id (teardownTrace id children)

/-- C2, counterexample: destroying a component (id 0) with a single nested
child component (id 1) runs the parent teardown hook first — the trace is
[0, 1] — so the child teardown does not precede the parent teardown. -/
theorem destroy_child_teardown_not_before_parent : ¬ claimC2Stated := by
  intro h
  have h0 := h 0 (CompForest.cons 1 CompForest.nil CompForest.nil) 1 (by decide)
  simp [teardownTrace, teardownTraceF, idxOf] at h0

/-- C2, amended: within one destroy call the teardown hook of the parent
component itself runs first, strictly before the teardown hook of every
descendant, and every descendant teardown hook still runs before the call
completes
(top-down initiation, full completion within the call). -/
theorem destroy_parent_teardown_first (id : Nat) (children : CompForest)
    (n : Nat) (hmem : n ∈ teardownTraceF children) (hne : n ≠ id) :
    idxOf id (teardownTrace id children) < idxOf n (teardownTrace id children)
      ∧ n ∈ teardownTrace id children
      ∧ (teardownTrace id children).head? = some id := by
  refine ⟨?_, List.mem_cons_of_mem _ hmem, rfl⟩
  show idxOf id (id :: teardownTraceF children) < idxOf n (id :: teardownTraceF children)
  rw [idxOf, idxOf, if_pos rfl, if_neg (fun h : id = n => hne (Eq.symm h))]
  exact Nat.succ_pos _

/-- Concrete instantiation of the amended C2 theorem: for a parent (id 0)
with one child (id 1), the parent hook fires at index 0, before the child hook
at index 1. -/
theorem destroy_parent_teardown_first_witness :
    (1 : Nat) ∈ teardownTraceF (CompForest.cons 1 CompForest.nil CompForest.nil)
      ∧ idxOf 0 (teardownTrace 0 (CompForest.cons 1 CompForest.nil CompForest.nil)) <
          idxOf 1 (teardownTrace 0 (CompForest.cons 1 CompForest.nil CompForest.nil)) :=
  ⟨by decide,
    (destroy_parent_teardown_first 0 (CompForest.cons 1 CompForest.nil CompForest.nil) 1
      (by decide) (by decide)).1⟩

/-! ### Suspending a render (claims C4 and C5)

ComponentState::suspend (packages/yew/src/html/component/lifecycle.rs, lines
203-235) and ComponentState::resume_existing_suspension (lines 142-151).
Suspensions are identified by numbers; resumedF reports the resumed() status
of each suspension at the time of the call.  The effects a call performs on
the outside world are recorded in order: listen s stands for
suspension.listen(...) installing the callback that pushes
ComponentState::run_render for this scope onto the scheduler, resumeSusp s
for resume_suspension(&suspense_scope, s), and suspendSusp s for
suspend_suspension(&suspense_scope, s). -/

/-- Effects performed by ComponentState::suspend, in source order. -/
inductive SEff where
  | renderNow
  | listen (s : Nat)
  | resumeSusp (s : Nat)
  | suspendSusp (s : Nat)
deriving DecidableEq, Repr

namespace ComponentState

/-- Shallow embedding of ComponentState::suspend.  tracked is the current
self.suspension field; the result carries the updated field and the effect
trace.  hasSuspense records whether find_parent_scope located an enclosing
Suspense context provider; when it does not, the source panics via expect. -/
def suspend (resumedF : Nat → Bool) (hasSuspense : Bool) (s : Nat)
    (tracked : Option Nat) : Except String (Option Nat × List SEff) :=
  if resumedF s then
    Except.ok (tracked, [SEff.renderNow])
  else if hasSuspense then
    let releaseOld : List SEff :=
      match tracked with
      | some old => if s ≠ old then [SEff.resumeSusp old] else []
      | none => []
    Except.ok (some s, SEff.listen s :: releaseOld ++ [SEff.suspendSusp s])
  else
    Except.error "To suspend rendering, a <Suspense /> component is required."

end ComponentState

/-- C4, confirmed: when a render suspends with an already-resumed Suspension,
the component just re-renders immediately (the only effect is renderNow — no
resume callback is registered and the tracked suspension is unchanged);
otherwise the component records the suspension as its suspended state,
registers the resume callback that re-enters render via the scheduler
(listen), dispatches the suspension to the enclosing suspense scope
(suspendSusp), and does not render now. -/
theorem suspend_resumed_render_now (resumedF : Nat → Bool) (s : Nat)
    (tracked : Option Nat) :
    (resumedF s = true →
        ComponentState.suspend resumedF true s tracked =
          Except.ok (tracked, [SEff.renderNow]))
      ∧ (resumedF s = false →
          ∃ effs, ComponentState.suspend resumedF true s tracked =
              Except.ok (some s, effs)
            ∧ SEff.listen s ∈ effs ∧ SEff.suspendSusp s ∈ effs
            ∧ SEff.renderNow ∉ effs) := by
  constructor
  · intro h
    simp [ComponentState.suspend, h]
  · intro h
    refine ⟨SEff.listen s ::
        (match tracked with
         | some old => if s ≠ old then [SEff.resumeSusp old] else []
         | none => []) ++ [SEff.suspendSusp s], ?_, ?_, ?_, ?_⟩
    · simp [ComponentState.suspend, h]
    · exact List.mem_cons_self _ _
    · simp
    · cases tracked with
      | none => simp
      | some old =>
        by_cases hso : s = old <;> simp [hso]

/-- Concrete instantiation of the C4 theorem: an already-resumed suspension
only triggers an immediate re-render, while a pending one is tracked,
listened to and dispatched without rendering now. -/
theorem suspend_resumed_render_now_witness :
    ((fun _ : Nat => true) 0 = true
        ∧ ComponentState.suspend (fun _ => true) true 0 none =
            Except.ok (none, [SEff.renderNow]))
      ∧ ((fun _ : Nat => false) 1 = false
          ∧ ∃ effs, ComponentState.suspend (fun _ => false) true 1 none =
              Except.ok (some 1, effs)
            ∧ SEff.listen 1 ∈ effs ∧ SEff.suspendSusp 1 ∈ effs
            ∧ SEff.renderNow ∉ effs) :=
  ⟨⟨rfl, (suspend_resumed_render_now (fun _ => true) 0 none).1 rfl⟩,
    ⟨rfl, (suspend_resumed_render_now (fun _ => false) 1 none).2 rfl⟩⟩

/-! ### Suspension registrations held by the enclosing suspense scope (C5)

Modelled from the spec: suspend_suspension registers a suspension with the
enclosing suspense boundary and resume_suspension releases that registration
(the Suspense component itself lives outside src/; per the identity
rule, releasing removes every registration equal to the given suspension,
rule of the spec, releasing removes every registration equal to the given
suspension, equality being identity).  The state below pairs the tracked
suspension (self.suspension of ComponentState) with the list of registrations
the component has placed in the suspense scope. -/

/-- Tracked suspension of one component plus the registrations it currently
holds in the enclosing suspense scope. -/
structure SuspState where
  tracked : Option Nat
  registered : List Nat
deriving DecidableEq, Repr

/-- Effect of one ComponentState::suspend call on the tracked suspension and
the registrations, following the source order: release the previous
suspension when the new one differs, then track and register the new one.
An already-resumed suspension leaves both unchanged (the call just renders). -/
def suspendStep (resumedF : Nat → Bool) (s : Nat) (st : SuspState) : SuspState :=
  if resumedF s then st
  else
    match st.tracked with
    | some old =>
      if s ≠ old then
        { tracked := some s,
          registered := s :: st.registered.filter (fun x => x ≠ old) }
      else { tracked := some s, registered := s :: st.registered }
    | none => { tracked := some s, registered := s :: st.registered }

/-- Effect of ComponentState::resume_existing_suspension (run by
commit_render and by destroy): take the tracked suspension, if any, and
release its registration. -/
def resumeExistingStep (st : SuspState) : SuspState :=
  match st.tracked with
  | some m => { tracked := none, registered := st.registered.filter (fun x => x ≠ m) }
  | none => st

/-- States of the tracked-suspension/registration pair reachable from a fresh
component (nothing tracked, nothing registered) by suspend and
resume-existing steps. -/
inductive SuspReach : SuspState → Prop where
  | start : SuspReach { tracked := none, registered := [] }
  | suspends (resumedF : Nat → Bool) (s : Nat) (st : SuspState) :
      SuspReach st → SuspReach (suspendStep resumedF s st)
  | resumes (st : SuspState) : SuspReach st → SuspReach (resumeExistingStep st)

/-- The registrations-match-tracked invariant is preserved by a suspend
step. -/
theorem suspendStep_inv (f : Nat → Bool) (s : Nat) (st : SuspState)
    (h : ∀ x ∈ st.registered, st.tracked = some x) :
    ∀ x ∈ (suspendStep f s st).registered, (suspendStep f s st).tracked = some x := by
  intro x hx
  by_cases hres : f s = true
  · simp only [suspendStep, if_pos hres] at hx ⊢
    exact h x hx
  · cases htr : st.tracked with
    | none =>
      simp only [suspendStep, if_neg hres, htr] at hx ⊢
      rcases List.mem_cons.mp hx with h1 | h1
      · simp [h1]
      · exact absurd (h x h1) (by simp [htr])
    | some old =>
      by_cases hso : s = old
      · subst hso
        simp only [suspendStep, if_neg hres, htr, ne_eq, not_true, ite_false] at hx ⊢
        rcases List.mem_cons.mp hx with h1 | h1
        · simp [h1]
        · have h2 := h x h1
          rw [htr] at h2
          simpa using h2
      · simp only [suspendStep, if_neg hres, htr, ne_eq, hso, not_false_eq_true,
          ite_true] at hx ⊢
        rcases List.mem_cons.mp hx with h1 | h1
        · simp [h1]
        · have h2 := List.mem_filter.mp h1
          have h3 := h x h2.1
          rw [htr] at h3
          have h4 : x = old := by simpa using h3.symm
          exact absurd h4 (by simpa using h2.2)

/-- The registrations-match-tracked invariant is preserved by a
resume-existing step. -/
theorem resumeExistingStep_inv (st : SuspState)
    (h : ∀ x ∈ st.registered, st.tracked = some x) :
    ∀ x ∈ (resumeExistingStep st).registered,
      (resumeExistingStep st).tracked = some x := by
  intro x hx
  cases htr : st.tracked with
  | none =>
    simp only [resumeExistingStep, htr] at hx ⊢
    exact htr ▸ h x hx
  | some m =>
    simp only [resumeExistingStep, htr] at hx
    have h2 := List.mem_filter.mp hx
    have h3 := h x h2.1
    rw [htr] at h3
    have h4 : x = m := by simpa using h3.symm
    exact absurd h4 (by simpa using h2.2)

/-- C5, confirmed: every registration the component holds in the suspense
scope equals its currently tracked suspension — so at most one distinct
suspension per component is ever registered — and when a component suspends
with a suspension differing from the tracked one, the old registration is
released (resumeSusp) strictly before the new suspension is recorded and
dispatched (suspendSusp). -/
theorem suspension_identity_at_most_one_registered (st : SuspState)
    (resumedF : Nat → Bool) (s old : Nat) :
    (SuspReach st → ∀ x ∈ st.registered, st.tracked = some x)
      ∧ (resumedF s = false → s ≠ old →
          ComponentState.suspend resumedF true s (some old) =
            Except.ok (some s,
              [SEff.listen s, SEff.resumeSusp old, SEff.suspendSusp s])) := by
  constructor
  · intro hreach
    induction hreach with
    | start => intro x hx; simp at hx
    | suspends f s1 st1 _ ih => exact suspendStep_inv f s1 st1 ih
    | resumes st1 _ ih => exact resumeExistingStep_inv st1 ih
  · intro hres hne
    simp [ComponentState.suspend, hres, hne]

/-- Concrete instantiation of the C5 theorem: after one pending suspend with
suspension 1 the only registration equals the tracked suspension, and a
subsequent suspend with the distinct suspension 2 releases suspension 1
before dispatching suspension 2. -/
theorem suspension_identity_witness :
    (∀ x ∈ (suspendStep (fun _ => false) 1
        { tracked := none, registered := [] }).registered,
        (suspendStep (fun _ => false) 1
          { tracked := none, registered := [] }).tracked = some x)
      ∧ ComponentState.suspend (fun _ => false) true 2 (some 1) =
          Except.ok (some 2,
            [SEff.listen 2, SEff.resumeSusp 1, SEff.suspendSusp 2]) :=
  ⟨(suspension_identity_at_most_one_registered _ (fun _ => false) 2 1).1
      (SuspReach.suspends (fun _ => false) 1 _ SuspReach.start),
    (suspension_identity_at_most_one_registered
        (suspendStep (fun _ => false) 1 { tracked := none, registered := [] })
        (fun _ => false) 2 1).2 rfl (by decide)⟩

/-! ### Suspense boundary reconciliation (claims C6 and C7)

VSuspense and its VDiff implementation
(packages/yew/src/virtual_dom/vsuspense.rs).  Child and fallback virtual-dom
subtrees are opaque and referred to by identifiers; DOM elements by ElemId.
The operations VSuspense::apply and VSuspense::detach invoke on those
subtrees — VDiff::detach, VDiff::shift, VDiff::apply, and
Element::remove_child on hydration-fragment nodes — are recorded as effects
in source order. -/

/-- Identifier of a physical element (the visible parent or the detached
parent of a suspense boundary). -/
abbrev ElemId := Nat

/-- A next-sibling argument: either a freshly created NodeRef::default() or a
caller-provided anchor. -/
inductive SRef where
  | default
  | anchor (n : Nat)
deriving DecidableEq, Repr

/-- Operations performed on opaque subtrees and the physical tree by the
suspense reconciler, in source order. -/
inductive VEff where
  | detachNode (node : Nat) (parent : ElemId) (parentToDetach : Bool)
  | removeChild (parent : ElemId) (node : Nat)
  | shiftNode (node : Nat) (prevParent nextParent : ElemId) (nextSibling : SRef)
  | applyNode (node : Nat) (parent : ElemId) (nextSibling : SRef) (ancestor : Option Nat)
deriving DecidableEq, Repr

/-- True for the effects that tear subtree content out of the tree
(VDiff::detach of a subtree, or removal of hydration fragment nodes). -/
def VEff.isDestructive : VEff → Bool
  | VEff.detachNode _ _ _ => true
  | VEff.removeChild _ _ => true
  | _ => false

/-- Fallback of a VSuspense, mirroring the VSuspenseFallback enum: a
renderable fallback subtree, or (during hydration) a retained fragment of
physical nodes. -/
inductive VSuspenseFallback where
  | render (rootNode : Nat)
  | hydration (fragment : List Nat)
deriving DecidableEq, Repr

/-- Mirror of the VSuspense struct: opaque children subtree, optional
fallback (None when not suspended), and the detached parent element. -/
structure VSuspense where
  children : Nat
  fallback : Option VSuspenseFallback
  detachedParent : Option ElemId
deriving DecidableEq, Repr

/-- The previous-generation node VSuspense::apply receives as ancestor:
either a suspense node or some other virtual-dom node variant. -/
inductive VAncestor where
  | vsuspense (m : VSuspense)
  | other (node : Nat)
deriving DecidableEq, Repr

/-- Shallow embedding of VSuspense::detach
(packages/yew/src/virtual_dom/vsuspense.rs, lines 59-85), returning the
effect trace; an error models the expect panic when no detached parent was
set. -/
def VSuspense.detach (self : VSuspense) (parent : ElemId) (parentToDetach : Bool) :
    Except String (List VEff) :=
  match self.detachedParent with
  | none => Except.error "no detached parent?"
  | some dp =>
    match self.fallback with
    | some (VSuspenseFallback.render rootNode) =>
      Except.ok [VEff.detachNode rootNode parent parentToDetach,
        VEff.detachNode self.children dp true]
    | some (VSuspenseFallback.hydration fragment) =>
      Except.ok
        ((if parentToDetach then [] else fragment.map (fun n => VEff.removeChild parent n))
          ++ [VEff.detachNode self.children dp true])
    | none => Except.ok [VEff.detachNode self.children parent parentToDetach]

/-- Detach of a previous-generation node, as performed by VSuspense::apply on
a mismatched ancestor: full VSuspense::detach for a suspense node, a single
subtree detach for any other variant. -/
def VAncestor.detach : VAncestor → ElemId → Bool → Except String (List VEff)
  | VAncestor.vsuspense m, parent, parentToDetach => m.detach parent parentToDetach
  | VAncestor.other n, parent, parentToDetach =>
    Except.ok [VEff.detachNode n parent parentToDetach]

/-- Shallow embedding of VSuspense::apply
(packages/yew/src/virtual_dom/vsuspense.rs, lines 105-251).  Returns the
updated VSuspense value and the effect trace; errors model the expect and
panic calls.  The child state of the ancestor is preserved only when it
is the same suspense (same detached parent); the four cases of the
(fallback, fallback_ancestor) match follow the source arm for arm. -/
def VSuspense.apply (self : VSuspense) (parent : ElemId) (nextSibling : SRef)
    (ancestor : Option VAncestor) : Except String (VSuspense × List VEff) :=
  match self.detachedParent with
  | none => Except.error "no detached parent?"
  | some dp =>
    let pre : Except String (Option Nat × Option VSuspenseFallback × List VEff) :=
      match ancestor with
      | some (VAncestor.vsuspense m) =>
        if self.detachedParent ≠ m.detachedParent then
          match VAncestor.detach (VAncestor.vsuspense m) parent false with
          | Except.ok effs => Except.ok (none, none, effs)
          | Except.error e => Except.error e
        else Except.ok (some m.children, m.fallback, [])
      | some (VAncestor.other n) =>
        Except.ok (none, none, [VEff.detachNode n parent false])
      | none => Except.ok (none, none, [])
    match pre with
    | Except.error e => Except.error e
    | Except.ok (childrenAncestor, fallbackAncestor, preEffs) =>
      match self.fallback, fallbackAncestor with
      -- Currently suspended, continue to be suspended.
      | some (VSuspenseFallback.render fb), some (VSuspenseFallback.render fba) =>
        Except.ok (self, preEffs
          ++ [VEff.applyNode self.children dp SRef.default childrenAncestor,
            VEff.applyNode fb parent nextSibling (some fba)])
      | some (VSuspenseFallback.hydration _), some (VSuspenseFallback.render _) =>
        Except.error "invalid suspense state!"
      | some _, some (VSuspenseFallback.hydration frag) =>
        Except.ok ({ self with fallback := some (VSuspenseFallback.hydration frag) },
          preEffs ++ [VEff.applyNode self.children dp SRef.default childrenAncestor])
      -- Currently not suspended, continue to be not suspended.
      | none, none =>
        Except.ok (self,
          preEffs ++ [VEff.applyNode self.children parent nextSibling childrenAncestor])
      -- The children is about to be suspended.
      | some (VSuspenseFallback.render fb), none =>
        Except.ok (self, preEffs
          ++ (match childrenAncestor with
            | some m => [VEff.shiftNode m parent dp SRef.default]
            | none => [])
          ++ [VEff.applyNode self.children dp SRef.default childrenAncestor,
            VEff.applyNode fb parent nextSibling none])
      | some (VSuspenseFallback.hydration _), none =>
        Except.error "invalid suspense state!"
      -- The children is about to be resumed.
      | none, some (VSuspenseFallback.render fba) =>
        Except.ok (self, preEffs
          ++ [VEff.detachNode fba parent false]
          ++ (match childrenAncestor with
            | some m => [VEff.shiftNode m dp parent nextSibling]
            | none => [])
          ++ [VEff.applyNode self.children parent nextSibling childrenAncestor])
      | none, some (VSuspenseFallback.hydration frag) =>
        Except.ok (self, preEffs
          ++ frag.map (fun n => VEff.removeChild parent n)
          ++ (match childrenAncestor with
            | some m => [VEff.shiftNode m dp parent nextSibling]
            | none => [])
          ++ [VEff.applyNode self.children parent nextSibling childrenAncestor])

/-- C6, confirmed: on the Active to Suspended transition (new node carries a
render fallback, same-suspense ancestor carried none) the previous children
subtree is shifted into the detached parent and reconciled there as the
ancestor of the new children (identities preserved), the fallback is applied
with no ancestor (constructed fresh) into the visible slot at the original
anchor, and no effect in the trace detaches or removes any subtree. -/
theorem vsuspense_active_to_suspended_shift (ch fb dp parent oldCh : Nat)
    (ns : SRef) :
    VSuspense.apply
        { children := ch, fallback := some (VSuspenseFallback.render fb),
          detachedParent := some dp } parent ns
        (some (VAncestor.vsuspense
          { children := oldCh, fallback := none, detachedParent := some dp })) =
      Except.ok
        ({ children := ch, fallback := some (VSuspenseFallback.render fb),
           detachedParent := some dp },
          [VEff.shiftNode oldCh parent dp SRef.default,
            VEff.applyNode ch dp SRef.default (some oldCh),
            VEff.applyNode fb parent ns none])
      ∧ ∀ e ∈ [VEff.shiftNode oldCh parent dp SRef.default,
            VEff.applyNode ch dp SRef.default (some oldCh),
            VEff.applyNode fb parent ns none],
          VEff.isDestructive e = false := by
  constructor
  · simp [VSuspense.apply]
  · intro e he
    rcases List.mem_cons.mp he with h1 | h1
    · simp [h1, VEff.isDestructive]
    rcases List.mem_cons.mp h1 with h2 | h2
    · simp [h2, VEff.isDestructive]
    rcases List.mem_cons.mp h2 with h3 | h3
    · simp [h3, VEff.isDestructive]
    · simp at h3

/-- C7, confirmed: on the Suspended to Active transition (new node carries no
fallback, same-suspense ancestor carried one) the previous fallback is first
detached from the visible slot — a rendered fallback by a subtree detach, a
hydration fallback by removing each fragment node from the parent — and only
then is the children subtree shifted from the detached parent back into the
visible slot at the original next-sibling anchor and reconciled there. -/
theorem vsuspense_suspended_to_active_restore (ch dp parent oldCh far : Nat)
    (frag : List Nat) (ns : SRef) :
    VSuspense.apply
        { children := ch, fallback := none, detachedParent := some dp } parent ns
        (some (VAncestor.vsuspense
          { children := oldCh, fallback := some (VSuspenseFallback.render far),
            detachedParent := some dp })) =
      Except.ok
        ({ children := ch, fallback := none, detachedParent := some dp },
          [VEff.detachNode far parent false,
            VEff.shiftNode oldCh dp parent ns,
            VEff.applyNode ch parent ns (some oldCh)])
      ∧ VSuspense.apply
          { children := ch, fallback := none, detachedParent := some dp } parent ns
          (some (VAncestor.vsuspense
            { children := oldCh, fallback := some (VSuspenseFallback.hydration frag),
              detachedParent := some dp })) =
        Except.ok
          ({ children := ch, fallback := none, detachedParent := some dp },
            frag.map (fun n => VEff.removeChild parent n)
              ++ [VEff.shiftNode oldCh dp parent ns,
                VEff.applyNode ch parent ns (some oldCh)]) := by
  constructor <;> simp [VSuspense.apply]

/-! ### Hydration: fragment consumption checks (claim C8) and the prepared
state block (claim C9)

The Fragment hydration cursor holds pre-existing physical nodes; here a node
is a text node, a plain element, or a script element with a type attribute
and text content. -/

/-- A physical node seen by the hydration cursor. -/
inductive HNode where
  | text (content : String)
  | element (tag : String)
  | script (scriptType content : String)
deriving DecidableEq, Repr

/-- True for text nodes (Fragment::trim_start_text_nodes removes these from
the front of the cursor and from the physical parent). -/
def HNode.isTextNode : HNode → Bool
  | HNode.text _ => true
  | _ => false

/-- Shallow embedding of Fragment::trim_start_text_nodes as it acts on the
cursor contents: drop the leading run of text nodes. -/
def trimStartTextNodes (fragment : List HNode) : List HNode :=
  fragment.dropWhile HNode.isTextNode

namespace ComponentState

/-- Shallow embedding of the hydration arm of ComponentState::commit_render
(packages/yew/src/html/component/lifecycle.rs, lines 264-279): Bundle::hydrate
consumes nodes from the front of the fragment (hydrateRest yields what it
leaves behind), leading text nodes are then trimmed, and the source asserts
that the fragment is now empty; the error models that assertion panicking. -/
def commitRenderHydration (hydrateRest : List HNode → List HNode)
    (fragment : List HNode) : Except String Unit :=
  let rest := trimStartTextNodes (hydrateRest fragment)
  if rest.isEmpty then Except.ok ()
  else Except.error "expected end of component, found node"

end ComponentState

namespace VSuspense

/-- Shallow embedding of the tail of VSuspense::hydrate
(packages/yew/src/virtual_dom/vsuspense.rs, lines 282-288): the children are
hydrated from the deep-cloned fallback nodes (childrenHydrateRest yields what
that hydration leaves behind), leading text nodes are trimmed, and the source
asserts the remainder is empty; the error models that assertion panicking. -/
def hydrateCheck (childrenHydrateRest : List HNode → List HNode)
    (nodes : List HNode) : Except String Unit :=
  let rest := trimStartTextNodes (childrenHydrateRest nodes)
  if rest.isEmpty then Except.ok ()
  else Except.error "expected end of suspense, found node."

end VSuspense

/-- The head left by List.dropWhile never satisfies the dropped predicate. -/
theorem dropWhile_head_not {α : Type} (p : α → Bool) (l : List α) (n : α)
    (rest : List α) (h : l.dropWhile p = n :: rest) : p n = false := by
  induction l with
  | nil => simp [List.dropWhile] at h
  | cons x xs ih =>
    by_cases hx : p x
    · exact ih (by simpa [List.dropWhile, hx] using h)
    · rw [List.dropWhile_cons_of_neg hx] at h
      cases h
      simpa using hx

/-- C8, confirmed: hydrating the layout of a component succeeds exactly when
the fragment, after the layout is consumed and leading text nodes trimmed,
is empty; whenever a (necessarily non-text) node remains unconsumed, the
check aborts with the structural-mismatch panic rather than continuing — and
the same holds for the suspense-boundary hydration check. -/
theorem hydration_leftover_nodes_panic (f g : List HNode → List HNode)
    (fragment nodes : List HNode) :
    (ComponentState.commitRenderHydration f fragment = Except.ok () ↔
        trimStartTextNodes (f fragment) = [])
      ∧ (∀ n rest, trimStartTextNodes (f fragment) = n :: rest →
          ComponentState.commitRenderHydration f fragment =
              Except.error "expected end of component, found node"
            ∧ HNode.isTextNode n = false)
      ∧ (VSuspense.hydrateCheck g nodes = Except.ok () ↔
          trimStartTextNodes (g nodes) = []) := by
  refine ⟨?_, ?_, ?_⟩
  · cases hrest : trimStartTextNodes (f fragment) with
    | nil => simp [ComponentState.commitRenderHydration, hrest]
    | cons n rest => simp [ComponentState.commitRenderHydration, hrest]
  · intro n rest hrest
    exact ⟨by simp [ComponentState.commitRenderHydration, hrest],
      dropWhile_head_not HNode.isTextNode (f fragment) n rest hrest⟩
  · cases hrest : trimStartTextNodes (g nodes) with
    | nil => simp [VSuspense.hydrateCheck, hrest]
    | cons n rest => simp [VSuspense.hydrateCheck, hrest]

/-- Concrete instantiation of the C8 theorem: a fragment holding one leftover
div element (after a hydration that consumes nothing) makes the commit check
abort with the structural-mismatch panic. -/
theorem hydration_leftover_nodes_panic_witness :
    trimStartTextNodes ((fun l => l) [HNode.element "div"]) =
        [HNode.element "div"]
      ∧ ComponentState.commitRenderHydration (fun l => l) [HNode.element "div"] =
          Except.error "expected end of component, found node"
      ∧ HNode.isTextNode (HNode.element "div") = false :=
  ⟨rfl,
    (hydration_leftover_nodes_panic (fun l => l) (fun l => l)
        [HNode.element "div"] []).2.1 (HNode.element "div") [] rfl⟩

/-- The script type yew uses for the embedded prepared-state block. -/
def compStateScriptType : String := "application/x-yew-comp-state"

/-- The script node the server-rendered prepared-state markup parses back
into on the client. -/
def preparedStateScriptNode (s : String) : HNode :=
  HNode.script compStateScriptType s

namespace Scope

/-- Shallow embedding of the chunk sequence Scope::render_into_stream writes
(packages/yew/src/html/component/scope.rs, lines 204-225): the hydration open
marker (when hydratable), the rendered component output, then — only when
the component provides prepared state — the opening script tag with the
dedicated type, the serialized state and the closing script tag, then the
close marker. -/
def renderIntoStreamWrites (hydratable : Bool) (openTag closeTag html : String)
    (preparedState : Option String) : List String :=
  (if hydratable then [openTag] else [])
    ++ [html]
    ++ (match preparedState with
      | some s =>
        ["<script type=\x22application/x-yew-comp-state\x22>", s, "</script>"]
      | none => [])
    ++ (if hydratable then [closeTag] else [])

end Scope

/-- The prepared-state content of a node, mirroring the check in
Scope::hydrate_in_place: the node must be a script element
(dyn_into HtmlScriptElement) whose type attribute is the dedicated prepared
state type; its text is the state. -/
def HNode.preparedStateOf : HNode → Option String
  | HNode.script ty content =>
    if ty = compStateScriptType then some content else none
  | _ => none

namespace Scope

/-- Shallow embedding of the prepared-state extraction in
Scope::hydrate_in_place (packages/yew/src/html/component/scope.rs, lines
433-444): if the back of the component fragment is a script element of the
prepared-state type, pop it from the fragment, remove it from the physical
parent and keep its text; otherwise leave the fragment alone.  Returns
(prepared_state, remaining fragment, nodes removed from the parent). -/
def extractPreparedState (fragment : List HNode) :
    Option String × List HNode × List HNode :=
  match fragment.getLast? with
  | some m =>
    match m.preparedStateOf with
    | some content => (some content, fragment.dropLast, [m])
    | none => (none, fragment, [])
  | none => (none, fragment, [])

end Scope

/-- C9, confirmed: server rendering a component that provides prepared state
writes exactly one trailing script block of the dedicated type between the
component output and the hydration close marker (and writes nothing extra
when no state is provided), and hydration consumes exactly such a trailing
script element — popping it off the fragment, removing it from the parent and
recovering the state — while a fragment with no such trailing element yields
no prepared state and is left unchanged. -/
theorem prepared_state_roundtrip (s openTag closeTag html : String)
    (fragment : List HNode) :
    Scope.renderIntoStreamWrites true openTag closeTag html (some s) =
        [openTag, html, "<script type=\x22application/x-yew-comp-state\x22>",
          s, "</script>", closeTag]
      ∧ Scope.renderIntoStreamWrites true openTag closeTag html none =
          [openTag, html, closeTag]
      ∧ Scope.extractPreparedState (fragment ++ [preparedStateScriptNode s]) =
          (some s, fragment, [preparedStateScriptNode s])
      ∧ ((fragment.getLast?.bind HNode.preparedStateOf) = none →
          Scope.extractPreparedState fragment = (none, fragment, [])) := by
  refine ⟨?_, ?_, ?_, ?_⟩
  · simp [Scope.renderIntoStreamWrites]
  · simp [Scope.renderIntoStreamWrites]
  · simp [Scope.extractPreparedState, preparedStateScriptNode,
      HNode.preparedStateOf, List.getLast?_concat, List.dropLast_concat]
  · intro hnone
    cases hlast : fragment.getLast? with
    | none => simp [Scope.extractPreparedState, hlast]
    | some m =>
      rw [hlast] at hnone
      simp only [Option.some_bind] at hnone
      simp [Scope.extractPreparedState, hlast, hnone]

/-- Concrete instantiation of the C9 theorem: the written chunk sequence for
state "S", successful extraction from a one-script fragment, and the
unchanged empty fragment when no trailing state script exists. -/
theorem prepared_state_roundtrip_witness :
    Scope.extractPreparedState [preparedStateScriptNode "S"] =
        (some "S", [], [preparedStateScriptNode "S"])
      ∧ ((([] : List HNode).getLast?.bind HNode.preparedStateOf) = none
          ∧ Scope.extractPreparedState ([] : List HNode) = (none, [], [])) :=
  ⟨by
      have h := (prepared_state_roundtrip "S" "o" "c" "h" ([] : List HNode)).2.2.1
      simpa using h,
    ⟨rfl, (prepared_state_roundtrip "S" "o" "c" "h" ([] : List HNode)).2.2.2 rfl⟩⟩

/-! ### Server renderer BufWriter (claim C10)

BufWriter (packages/yew/src/server_renderer.rs, lines 13-71).  Strings are
modelled as character lists; the chunks handed to the unbounded channel are
collected in the sent list in send order.  allocCap models the allocated
capacity of the Rust String buffer: String::with_capacity(c) allocates at
least c, and push_str grows the allocation by an unspecified strategy when it
does not suffice — the growth strategy is the opaque parameter grow, so every
result below holds for every growth behaviour. -/

/-- The content of a Rust string, as a character list. -/
abbrev RStr := List Char

/-- Mirror of the BufWriter struct fields plus the chunks sent so far. -/
structure BufWriter where
  buf : RStr
  allocCap : Nat
  capacity : Nat
  sent : List RStr
deriving DecidableEq, Repr

namespace BufWriter

/-- Shallow embedding of BufWriter::with_capacity (the stream side of the
channel is the sent list). -/
def withCapacity (capacity : Nat) : BufWriter :=
  { buf := [], allocCap := capacity, capacity := capacity, sent := [] }

/-- Allocated capacity after pushing onto a Rust String: unchanged when the
needed length fits, otherwise grown by the opaque strategy. -/
def growAlloc (grow : Nat → Nat → Nat) (allocCap need : Nat) : Nat :=
  if need ≤ allocCap then allocCap else grow allocCap need

/-- Shallow embedding of BufWriter::write
(packages/yew/src/server_renderer.rs, lines 37-60): an over-capacity chunk
first drains a non-empty buffer and is then sent directly; otherwise the
chunk is pushed onto the buffer when the current allocation admits its
length, and failing that the old buffer contents are sent while the chunk
seeds a fresh buffer. -/
def write (grow : Nat → Nat → Nat) (w : BufWriter) (s : RStr) : BufWriter :=
  if s.length > w.capacity then
    let w1 :=
      if w.buf.isEmpty then w
      else { w with sent := w.sent ++ [w.buf], buf := [], allocCap := w.capacity }
    { w1 with sent := w1.sent ++ [s] }
  else if w.allocCap ≥ s.length then
    { w with buf := w.buf ++ s,
             allocCap := growAlloc grow w.allocCap (w.buf.length + s.length) }
  else
    { w with sent := w.sent ++ [w.buf], buf := s,
             allocCap := growAlloc grow w.capacity s.length }

/-- Shallow embedding of the Drop impl for BufWriter
(packages/yew/src/server_renderer.rs, lines 63-71): flush a non-empty buffer
as a final chunk.  Returns the full chunk sequence the channel received. -/
def dropFlush (w : BufWriter) : List RStr :=
  if w.buf.isEmpty then w.sent else w.sent ++ [w.buf]

/-- Run a sequence of write calls. -/
def writeAll (grow : Nat → Nat → Nat) (w : BufWriter) : List RStr → BufWriter
  | [] => w
  | s :: rest => writeAll grow (write grow w s) rest

/-- Chunks emitted to the channel by a full write-then-drop run of a
BufWriter of the given capacity. -/
def run (grow : Nat → Nat → Nat) (capacity : Nat) (writes : List RStr) :
    List RStr :=
  dropFlush (writeAll grow (withCapacity capacity) writes)

/-- One write preserves sent-chunks-then-buffer as the concatenation of
everything written. -/
theorem write_invariant (grow : Nat → Nat → Nat) (w : BufWriter) (s : RStr) :
    (write grow w s).sent.flatten ++ (write grow w s).buf =
      w.sent.flatten ++ w.buf ++ s := by
  by_cases hbig : s.length > w.capacity
  · by_cases hempty : w.buf.isEmpty
    · have hnil : w.buf = [] := by simpa using hempty
      simp [write, hbig, hempty, hnil]
    · simp [write, hbig, hempty, List.append_assoc]
  · by_cases hfit : w.allocCap ≥ s.length
    · simp [write, hbig, hfit, List.append_assoc]
    · simp [write, hbig, hfit, List.append_assoc]

/-- A write sequence preserves sent-chunks-then-buffer as the concatenation
of everything written. -/
theorem writeAll_invariant (grow : Nat → Nat → Nat) (writes : List RStr) :
    ∀ w : BufWriter,
      (writeAll grow w writes).sent.flatten ++ (writeAll grow w writes).buf =
        w.sent.flatten ++ w.buf ++ writes.flatten := by
  induction writes with
  | nil => intro w; simp [writeAll]
  | cons s rest ih =>
    intro w
    calc (writeAll grow (write grow w s) rest).sent.flatten
          ++ (writeAll grow (write grow w s) rest).buf
        = (write grow w s).sent.flatten ++ (write grow w s).buf ++ rest.flatten :=
          ih (write grow w s)
      _ = w.sent.flatten ++ w.buf ++ s ++ rest.flatten := by
          rw [write_invariant]
      _ = w.sent.flatten ++ w.buf ++ (s :: rest).flatten := by
          simp [List.append_assoc]

end BufWriter

/-- C10, confirmed: for every buffer capacity, every allocation-growth
behaviour and every sequence of written chunks (of any sizes relative to the
capacity), the concatenation of the string chunks the BufWriter emits to its
output channel across the writes and the final drop equals the concatenation
of the written strings, in order — nothing is lost, duplicated or
reordered. -/
theorem bufwriter_concat_preserved (grow : Nat → Nat → Nat) (capacity : Nat)
    (writes : List RStr) :
    (BufWriter.run grow capacity writes).flatten = writes.flatten := by
  have h := BufWriter.writeAll_invariant grow writes (BufWriter.withCapacity capacity)
  unfold BufWriter.run BufWriter.dropFlush
  by_cases hempty :
      (BufWriter.writeAll grow (BufWriter.withCapacity capacity) writes).buf.isEmpty
  · have hnil :
        (BufWriter.writeAll grow (BufWriter.withCapacity capacity) writes).buf = [] := by
      simpa using hempty
    rw [if_pos hempty]
    rw [hnil, List.append_nil] at h
    simpa [BufWriter.withCapacity] using h
  · rw [if_neg hempty]
    simpa [BufWriter.withCapacity] using h

end Yew
